import Mathlib

/-!
Verification of the rslog structured-log formatting layer (logger.go).

The Go code is shallowly embedded here:
* Go strings are Lean `String` (ranging over a Go string = iterating its
  chars; `len` of a Go string = `String.utf8ByteSize`).
* A Go `interface\x7b\x7d` context value is `GoValue`.  Values whose dynamic
  behaviour matters (errors / `fmt.Stringer`s whose method may panic on a
  typed nil pointer receiver, `time.Time`, fallback `%+v` dumps) carry that
  behaviour explicitly.
* A Go panic is modelled as `Option.none`; code that cannot panic returns
  plain values.
* Finite floating-point numbers are modelled by their exact rational
  magnitude together with a sign bit (every finite IEEE float is such a
  rational); the non-finite values are separate constructors.
-/

namespace Rslog

/-- A calendar timestamp, the part of a Go `time.Time` observable through the
layouts used by this repository. -/
structure GoTime where
  year : Nat
  month : Nat
  day : Nat
  hour : Nat
  minute : Nat
  second : Nat
deriving DecidableEq

/-- Behaviour of a user supplied method (`Error()` or `String()`): whether the
call panics, whether the receiver is a typed nil pointer (checked by
`formatShared`'s recover handler via reflection), and the text returned when
the call succeeds. -/
structure MethodBehavior where
  panics : Bool
  isNilPtr : Bool
  text : String
deriving DecidableEq

/-- A finite or non-finite floating point value.  A finite float is its exact
rational magnitude `num/den` with an explicit sign (so that negative zero is
representable). -/
inductive FloatVal where
  | finite (neg : Bool) (num : Nat) (den : Nat)
  | inf
  | negInf
  | nan
deriving DecidableEq

/-- A Go `interface\x7b\x7d` value as it can appear in a log record's context.
`vInt` covers all of Go's integer types (they are all printed with `%d`).
`vErr` is a value implementing `error` (looked at before `fmt.Stringer`),
`vStringer` a value implementing only `fmt.Stringer`; `vOther` is any other
value, carrying the text `fmt.Sprintf("%+v", value)` would produce for it. -/
inductive GoValue where
  | vNil
  | vBool (b : Bool)
  | vInt (i : Int)
  | vFloat32 (f : FloatVal)
  | vFloat64 (f : FloatVal)
  | vStr (s : String)
  | vTime (t : GoTime)
  | vErr (m : MethodBehavior)
  | vStringer (m : MethodBehavior)
  | vOther (dump : String)
deriving DecidableEq

/-- The five defined constants of log15's int-typed `log15.Lvl` (0 = crit,
1 = error, 2 = warn, 3 = info, 4 = debug).  These are the only values the
log15 API constructs, and for any other int log15's own `Lvl.String()`
panics, so records carry this inductive; `lvlInt` recovers the raw int, and
the syslog severity switch — whose scrutinee is that int — is modelled over
`Int` by `syslogFnFor`, keeping its default arm. -/
inductive Lvl where
  | crit
  | error
  | warn
  | info
  | debug
deriving DecidableEq

/-- The int value of a `log15.Lvl` constant. -/
def lvlInt : Lvl → Int
  | .crit => 0
  | .error => 1
  | .warn => 2
  | .info => 3
  | .debug => 4

/-- `log15.Lvl.String()` (from the log15 library): the four-letter level
names, note `"eror"` for the error level. -/
def lvlString : Lvl → String
  | .crit => "crit"
  | .error => "eror"
  | .warn => "warn"
  | .info => "info"
  | .debug => "dbug"

/-- A log15 record as seen by a `log15.Format` function. -/
structure Record where
  time : GoTime
  lvl : Lvl
  msg : String
  ctx : List GoValue

/-- `FmtConfig` from logger.go. -/
structure FmtConfig where
  timestampFormat : String
  level : Bool
  msgCtxSeparator : String
  msgJustification : Int
deriving DecidableEq

/-- The decimal digit character for `d % 10`-style arguments (`'0' + d` for
`d < 10`; callers only pass reduced digits). -/
def digitCh (d : Nat) : Char :=
  if d = 0 then '0' else if d = 1 then '1' else if d = 2 then '2'
  else if d = 3 then '3' else if d = 4 then '4' else if d = 5 then '5'
  else if d = 6 then '6' else if d = 7 then '7' else if d = 8 then '8'
  else '9'

/-- Decimal digits of `n`, most significant first, prepended to `acc`
(models the decimal rendering done by Go's strconv).  The fuel argument only
bounds the recursion depth; any fuel of at least the digit count of `n`
gives the same result. -/
def natToDecAux (fuel : Nat) (n : Nat) (acc : List Char) : List Char :=
  match fuel with
  | 0 => acc
  | fuel + 1 =>
    let acc1 := digitCh (n % 10) :: acc
    if n < 10 then acc1 else natToDecAux fuel (n / 10) acc1

/-- Decimal rendering of a natural number. -/
def natToDec (n : Nat) : String := String.mk (natToDecAux (n + 1) n [])

/-- Decimal rendering of an integer: models Go `fmt.Sprintf("%d", v)` for all
of Go's integer types. -/
def intToDec (i : Int) : String :=
  if i < 0 then "-" ++ natToDec i.natAbs else natToDec i.natAbs

/-- `strconv.FormatBool`. -/
def strconvFormatBool (b : Bool) : String := if b then "true" else "false"

/-- Round `a / b` to the nearest integer, ties to even (the rounding Go's
strconv performs on the exact value when a fixed number of digits is
requested). -/
def roundHalfEven (a b : Nat) : Nat :=
  let q := a / b
  let r := a % b
  if 2 * r > b then q + 1 else if 2 * r < b then q
  else if q % 2 = 0 then q else q + 1

/-- Exactly three decimal digits, zero padded, of `n % 1000`. -/
def pad3 (n : Nat) : String :=
  String.mk [digitCh (n / 100 % 10), digitCh (n / 10 % 10), digitCh (n % 10)]

/-- Fixed-point rendering with three fractional digits of the finite float
`(-1)^neg * num / den`: models `strconv.FormatFloat(v, 'f', 3, 64)` on finite
values (correctly rounded decimal of the exact binary value). -/
def formatFixed3 (neg : Bool) (num den : Nat) : String :=
  let n := roundHalfEven (num * 1000) den
  (if neg then "-" else "") ++ natToDec (n / 1000) ++ "." ++ pad3 (n % 1000)

/-- `strconv.FormatFloat(v, 'f', 3, 64)`: fixed point for finite values,
and the documented special strings for the non-finite values. -/
def formatFloatGo : FloatVal → String
  | .nan => "NaN"
  | .inf => "+Inf"
  | .negInf => "-Inf"
  | .finite neg num den => formatFixed3 neg num den

/-- Whether a character forces quoting in `escapeString` (logger.go line 263:
`r <= ' ' || r == '=' || r == '"'`). -/
def needsQuote (c : Char) : Bool :=
  decide (c ≤ ' ') || c == '=' || c == '"'

/-- The characters `escapeString`'s loop writes for one input character
(logger.go lines 267-282). -/
def escapeChar (c : Char) : String :=
  if c = '\\' ∨ c = '"' then String.mk ['\\', c]
  else if c = '\n' then "\\n"
  else if c = '\r' then "\\r"
  else if c = '\t' then "\\t"
  else String.mk [c]

/-- The body `escapeString`'s loop accumulates between the quote bytes. -/
def escBody (s : String) : String := String.join (s.data.map escapeChar)

/-- `escapeString` from logger.go.  The Go code writes `"` + body + `"` into a
buffer while recording `needQuotes`, then slices the two quote bytes back off
when no character required quoting; that is the conditional below. -/
def escapeString (s : String) : String :=
  if s.data.any needsQuote then "\"" ++ escBody s ++ "\"" else escBody s

/-- Four decimal digits of a year, zero padded (Go's layout prints years
below 10000 with exactly four digits). -/
def pad4 (n : Nat) : String :=
  if n ≥ 10000 then natToDec n
  else String.mk [digitCh (n / 1000 % 10), digitCh (n / 100 % 10),
                  digitCh (n / 10 % 10), digitCh (n % 10)]

/-- Two decimal digits, zero padded. -/
def pad2 (n : Nat) : String := String.mk [digitCh (n / 10 % 10), digitCh (n % 10)]

/-- Layout scanner of `time.Time.Format`, restricted to the numeric reference
tokens (`2006`, `01`, `02`, `15`, `04`, `05`); every other layout character is
copied verbatim.  This covers the layouts this repository uses. -/
def goTimeFormatAux (t : GoTime) : List Char → List Char
  | '2' :: '0' :: '0' :: '6' :: rest => (pad4 t.year).data ++ goTimeFormatAux t rest
  | '0' :: '1' :: rest => (pad2 t.month).data ++ goTimeFormatAux t rest
  | '0' :: '2' :: rest => (pad2 t.day).data ++ goTimeFormatAux t rest
  | '1' :: '5' :: rest => (pad2 t.hour).data ++ goTimeFormatAux t rest
  | '0' :: '4' :: rest => (pad2 t.minute).data ++ goTimeFormatAux t rest
  | '0' :: '5' :: rest => (pad2 t.second).data ++ goTimeFormatAux t rest
  | c :: rest => c :: goTimeFormatAux t rest
  | [] => []

/-- `t.Format(layout)` for the layouts used by this repository. -/
def goTimeFormat (layout : String) (t : GoTime) : String :=
  String.mk (goTimeFormatAux t layout.data)

/-- `simpleTimeFormat` from logger.go. -/
def simpleTimeFormat : String := "2006-01-02 15:04:05"

/-- `simpleMsgJust` from logger.go. -/
def simpleMsgJust : Int := 40

/-- The shape a value has after `formatShared`: `time.Time`, `error` and
`fmt.Stringer` values have been replaced by strings, everything else passed
through. -/
inductive SharedValue where
  | sNil
  | sBool (b : Bool)
  | sInt (i : Int)
  | sFloat32 (f : FloatVal)
  | sFloat64 (f : FloatVal)
  | sStr (s : String)
  | sOther (dump : String)
deriving DecidableEq

/-- `formatShared` from logger.go: formats `time.Time` with
`simpleTimeFormat`, calls `Error()` on errors and `String()` on Stringers.
A panic raised by such a call is recovered; if the value is a typed nil
pointer the result becomes the string `"nil"`, otherwise the panic is
re-raised (`none`). -/
def formatShared : GoValue → Option SharedValue
  | .vTime t => some (.sStr (goTimeFormat simpleTimeFormat t))
  | .vErr m =>
    if m.panics then (if m.isNilPtr then some (.sStr "nil") else none)
    else some (.sStr m.text)
  | .vStringer m =>
    if m.panics then (if m.isNilPtr then some (.sStr "nil") else none)
    else some (.sStr m.text)
  | .vNil => some .sNil
  | .vBool b => some (.sBool b)
  | .vInt i => some (.sInt i)
  | .vFloat32 f => some (.sFloat32 f)
  | .vFloat64 f => some (.sFloat64 f)
  | .vStr s => some (.sStr s)
  | .vOther dump => some (.sOther dump)

/-- `formatLogfmtValue` from logger.go.  `none` models a propagated panic.
The `sNil` arm is unreachable (an untyped nil is returned as `"nil"` before
`formatShared` runs); it is given Go's `%+v` rendering of nil. -/
def formatLogfmtValue (value : GoValue) : Option String :=
  match value with
  | .vNil => some "nil"
  | _ =>
    match formatShared value with
    | none => none
    | some (.sBool b) => some (strconvFormatBool b)
    | some (.sFloat32 f) => some (formatFloatGo f)
    | some (.sFloat64 f) => some (formatFloatGo f)
    | some (.sInt i) => some (intToDec i)
    | some (.sStr s) => some (escapeString s)
    | some (.sOther dump) => some (escapeString dump)
    | some .sNil => some (escapeString "<nil>")

/-- `strings.ToUpper` on the ASCII level names. -/
def goToUpper (s : String) : String := String.mk (s.data.map Char.toUpper)

/-- A string of `n` spaces (`bytes.Repeat([]byte\x7b' '\x7d, n)`). -/
def spacesStr (n : Nat) : String := String.mk (List.replicate n ' ')

/-- The buffer contents after the time and level blocks of
`ConfigurableFormatter` (logger.go lines 121-134). -/
def headerStr (f : FmtConfig) (r : Record) : String :=
  let b0 := if f.timestampFormat ≠ "" then
    "[" ++ goTimeFormat f.timestampFormat r.time ++ "]" else ""
  if f.level then (if b0 ≠ "" then b0 ++ " " else b0) ++ goToUpper (lvlString r.lvl)
  else b0

/-- The empty-tag special case (logger.go lines 140-157): when the first
context element is the string `""`, the second element is written before the
message (verbatim when it is a string, as `LOG_ERR=""` otherwise) and both
are dropped from the remaining context.  Accessing `context[1]` when the
context has length one is an index-out-of-range panic (`none`).  Returns the
grown buffer and the remaining context (`context[contextOffset:]`). -/
def writeEmptyTag (b : String) (ctx : List GoValue) : Option (String × List GoValue) :=
  match ctx with
  | .vStr k :: rest =>
    if k = "" then
      match rest with
      | [] => none
      | v :: rest2 =>
        let b1 := if b ≠ "" then b ++ " " else b
        let b2 := match v with
          | .vStr s => b1 ++ s
          | _ => b1 ++ "LOG_ERR=\"\""
        some (b2, rest2)
    else some (b, ctx)
  | _ => some (b, ctx)

/-- The message block (logger.go lines 160-166). -/
def msgStep (b msg : String) : String :=
  if msg ≠ "" then (if b ≠ "" then b ++ " " else b) ++ msg else b

/-- The justification padding (logger.go lines 171-174): written only while
printing remaining context, when the byte length of the message is below
`MsgJustification`. -/
def justifyPad (f : FmtConfig) (msg : String) : String :=
  if (msg.utf8ByteSize : Int) < f.msgJustification then
    spacesStr (f.msgJustification - (msg.utf8ByteSize : Int)).toNat
  else ""

/-- The message/context separator (logger.go lines 177-181). -/
def msgSep (f : FmtConfig) : String :=
  if f.msgCtxSeparator = "" then " " else f.msgCtxSeparator

/-- The `key=value` strings produced by the context loop (logger.go lines
184-200), one per iteration, in order.  A string key takes the following
element as its value; a non-string element becomes `LOG_ERR=<its encoding>`
and the element after it is skipped (`i += 2`).  A string key in final
position makes `context[i+1]` panic with index out of range (`none`), as does
a value whose encoding panics. -/
def ctxPairs : List GoValue → Option (List String)
  | [] => some []
  | .vStr _ :: [] => none
  | .vStr k :: v :: rest =>
    match formatLogfmtValue v, ctxPairs rest with
    | some vs, some tail => some ((k ++ "=" ++ vs) :: tail)
    | _, _ => none
  | kv :: [] =>
    match formatLogfmtValue kv with
    | some vs => some ["LOG_ERR=" ++ vs]
    | none => none
  | kv :: _ :: rest =>
    match formatLogfmtValue kv, ctxPairs rest with
    | some vs, some tail => some (("LOG_ERR=" ++ vs) :: tail)
    | _, _ => none

/-- `ConfigurableFormatter` from logger.go as a function from a record to the
produced line; `none` models a panic escaping the format function. -/
def configurableFormatter (f : FmtConfig) (r : Record) : Option String :=
  match writeEmptyTag (headerStr f r) r.ctx with
  | none => none
  | some (b2, remaining) =>
    let b3 := msgStep b2 r.msg
    if remaining.isEmpty then some (b3 ++ "\n")
    else
      match ctxPairs remaining with
      | none => none
      | some ps =>
        some (b3 ++ justifyPad f r.msg ++ msgSep f
                ++ String.intercalate " " ps ++ "\n")

/-- `SimpleFormat` from logger.go. -/
def simpleFormat (timestamps : Bool) : Record → Option String :=
  let fmtConfig : FmtConfig :=
    { timestampFormat := simpleTimeFormat
      level := true
      msgCtxSeparator := ""
      msgJustification := simpleMsgJust }
  let fmtConfig := if !timestamps then { fmtConfig with timestampFormat := "" }
                   else fmtConfig
  configurableFormatter fmtConfig

/-- `TerseFormat` from logger.go. -/
def terseFormat : Record → Option String :=
  let fmtConfig : FmtConfig :=
    { timestampFormat := ""
      level := false
      msgCtxSeparator := ""
      msgJustification := simpleMsgJust }
  configurableFormatter fmtConfig

/-- The severity methods of a `syslog.Writer`. -/
inductive SyslogFn where
  | crit
  | err
  | warning
  | info
  | debug
deriving DecidableEq

/-- The severity-selection `switch` of `newSyslogHandler` (logger.go lines
60-72), over the raw int-typed `log15.Lvl`: the Crit/Err/Warning/Info/Debug
cases for the five defined constants, and the initial assignment
`var syslogFn = sysWr.Info` kept for every other value. -/
def syslogFnFor (lvl : Int) : SyslogFn :=
  if lvl = 0 then .crit
  else if lvl = 1 then .err
  else if lvl = 2 then .warning
  else if lvl = 3 then .info
  else if lvl = 4 then .debug
  else .info

/-- `unicode.IsSpace`: the Unicode White_Space property — TAB through CR,
space, NEL, NBSP, OGHAM SPACE MARK, the EN QUAD through HAIR SPACE range,
LINE and PARAGRAPH SEPARATOR, NARROW NBSP, MEDIUM MATHEMATICAL SPACE, and
IDEOGRAPHIC SPACE. -/
def goIsSpace (c : Char) : Bool :=
  (decide ('\x09' ≤ c) && decide (c ≤ '\x0d')) || c == ' ' || c == '\x85' ||
  c == '\xa0' || c == '\u1680' ||
  (decide ('\u2000' ≤ c) && decide (c ≤ '\u200a')) ||
  c == '\u2028' || c == '\u2029' || c == '\u202f' || c == '\u205f' ||
  c == '\u3000'

/-- `strings.TrimSpace`. -/
def goTrimSpace (s : String) : String :=
  String.mk (((s.data.dropWhile goIsSpace).reverse.dropWhile goIsSpace).reverse)

/-- The handler function built by `newSyslogHandler` (logger.go lines 58-77):
selects the severity method from the record's level via the int-valued
switch `syslogFnFor`, formats the record with `SimpleFormat(false)` and
trims the result; `none` models a panic escaping from `Format`, in which
case no severity method is invoked. -/
def newSyslogHandler (r : Record) : Option (SyslogFn × String) :=
  let syslogFn : SyslogFn := syslogFnFor (lvlInt r.lvl)
  match simpleFormat false r with
  | none => none
  | some line => some (syslogFn, goTrimSpace line)

/-- `NewFileHandler` from logger.go, with the outcome of the underlying
`log15.FileHandler(file, SimpleFormat(true))` call passed in as `u`.  The Go
pair `(log15.Handler, error)` is the pair of options (nil = `none`). -/
def newFileHandlerGo {H : Type} (file : String) (u : Except String H) :
    Option H × Option String :=
  match u with
  | .error e => (none, some ("failed to create log file " ++ file ++ ": " ++ e))
  | .ok h => (some h, none)

/-- `NewSyslogHandler` from logger.go, with the outcome of the underlying
`SyslogNew(syslog.LOG_NOTICE|syslog.LOG_LOCAL0, tag)` call passed in as `u`;
on success the handler wrapping the writer is returned. -/
def newSyslogHandlerGo (u : Except String Unit) :
    Option (Record → Option (SyslogFn × String)) × Option String :=
  match u with
  | .error e => (none, some ("failed to connect to syslog: " ++ e))
  | .ok _ => (some newSyslogHandler, none)

/-- `NewTCPSyslogHandler` from logger.go, with the outcome of the underlying
`SyslogNewTCP(addr, ...)` dial passed in as `u`. -/
def newTCPSyslogHandlerGo (_addr : String) (u : Except String Unit) :
    Option (Record → Option (SyslogFn × String)) × Option String :=
  match u with
  | .error e => (none, some ("failed to connect to syslog: " ++ e))
  | .ok _ => (some newSyslogHandler, none)

/-- `NewUDPSyslogHandler` from logger.go, with the outcome of the underlying
`SyslogNewUDP(addr, ...)` dial passed in as `u`. -/
def newUDPSyslogHandlerGo (_addr : String) (u : Except String Unit) :
    Option (Record → Option (SyslogFn × String)) × Option String :=
  match u with
  | .error e => (none, some ("failed to connect to syslog: " ++ e))
  | .ok _ => (some newSyslogHandler, none)

/-- A string is a plain fixed-point decimal with exactly three fractional
digits: an optional leading minus sign, then a nonempty run of digits, a
decimal point, and exactly three further digits — in particular no exponent
marker anywhere.  (Spec-side predicate used to state the claim about float
rendering.) -/
def isFixedPoint3 (s : String) : Bool :=
  let cs := s.data
  let cs := if cs.head? = some '-' then cs.tail else cs
  let ip := cs.takeWhile fun c => c.isDigit
  let rest := cs.dropWhile fun c => c.isDigit
  !ip.isEmpty && rest.length == 4 && rest.head? == some '.' &&
    (rest.tail.all fun c => c.isDigit)

/-- Whether encoding the value panics out of the formatter: an `Error()` or
`String()` method that panics on a receiver that is not a typed nil
pointer (logger.go lines 232-240 re-raise exactly then). -/
def valuePanics : GoValue → Bool
  | .vErr m => m.panics && !m.isNilPtr
  | .vStringer m => m.panics && !m.isNilPtr
  | _ => false

/-! ## Theorems -/

/-- Every branch of `digitCh` is a decimal digit character. -/
theorem digitCh_isDigit (d : Nat) : (digitCh d).isDigit = true := by
  unfold digitCh
  repeat' split
  all_goals decide

/-- `natToDecAux` only adds digit characters. -/
theorem natToDecAux_digits :
    ∀ (fuel n : Nat) (acc : List Char), (∀ c ∈ acc, c.isDigit = true) →
      ∀ c ∈ natToDecAux fuel n acc, c.isDigit = true := by
  intro fuel
  induction fuel with
  | zero => intro n acc h c hc; exact h c hc
  | succ fuel ih =>
    intro n acc h c hc
    have hacc1 : ∀ c ∈ digitCh (n % 10) :: acc, c.isDigit = true := by
      intro c hc
      rcases List.mem_cons.mp hc with h1 | h2
      · rw [h1]; exact digitCh_isDigit _
      · exact h c h2
    simp only [natToDecAux] at hc
    by_cases hn : n < 10
    · rw [if_pos hn] at hc; exact hacc1 c hc
    · rw [if_neg hn] at hc; exact ih (n / 10) _ hacc1 c hc

/-- `natToDecAux` never shrinks a nonempty accumulator away. -/
theorem natToDecAux_ne_nil :
    ∀ (fuel n : Nat) (acc : List Char), acc ≠ [] → natToDecAux fuel n acc ≠ [] := by
  intro fuel
  induction fuel with
  | zero => intro n acc h; exact h
  | succ fuel ih =>
    intro n acc h
    simp only [natToDecAux]
    by_cases hn : n < 10
    · rw [if_pos hn]; exact List.cons_ne_nil _ _
    · rw [if_neg hn]; exact ih (n / 10) _ (List.cons_ne_nil _ _)

/-- The decimal rendering of a natural number is a nonempty string of
digits. -/
theorem natToDec_spec (n : Nat) :
    (natToDec n).data ≠ [] ∧ ∀ c ∈ (natToDec n).data, c.isDigit = true := by
  constructor
  · show natToDecAux (n + 1) n [] ≠ []
    simp only [natToDecAux]
    by_cases hn : n < 10
    · rw [if_pos hn]; exact List.cons_ne_nil _ _
    · rw [if_neg hn]; exact natToDecAux_ne_nil _ _ _ (List.cons_ne_nil _ _)
  · exact natToDecAux_digits (n + 1) n [] (by simp)

/-- `takeWhile`/`dropWhile` across a block that wholly satisfies the
predicate. -/
theorem takeWhile_dropWhile_all (p : Char → Bool) :
    ∀ (l r : List Char), (∀ c ∈ l, p c = true) →
      (l ++ r).takeWhile p = l ++ r.takeWhile p ∧
      (l ++ r).dropWhile p = r.dropWhile p := by
  intro l
  induction l with
  | nil => intro r _; simp
  | cons c l ih =>
    intro r h
    have hc : p c = true := h c (List.mem_cons_self _ _)
    have hrec := ih r fun c hc' => h c (List.mem_cons_of_mem _ hc')
    simp [List.takeWhile_cons, List.dropWhile_cons, hc, hrec.1, hrec.2]

/-- A digit character is not a minus sign. -/
theorem isDigit_ne_minus {c : Char} (h : c.isDigit = true) : c ≠ '-' := by
  intro hc; rw [hc] at h; exact absurd h (by decide)

/-- The fixed-point renderer always produces sign, nonempty integer part,
point, and exactly three fractional digits. -/
theorem formatFixed3_shape (neg : Bool) (num den : Nat) :
    isFixedPoint3 (formatFixed3 neg num den) = true := by
  obtain ⟨hdne, hddig⟩ := natToDec_spec (roundHalfEven (num * 1000) den / 1000)
  set d := natToDec (roundHalfEven (num * 1000) den / 1000) with hd
  set m := roundHalfEven (num * 1000) den % 1000 with hm
  have hfr : (pad3 m).data =
      [digitCh (m / 100 % 10), digitCh (m / 10 % 10), digitCh (m % 10)] := rfl
  have hdata : (formatFixed3 neg num den).data =
      (if neg then "-" else "").data ++ (d.data ++ '.' :: (pad3 m).data) := by
    simp only [formatFixed3, String.data_append, ← hd, ← hm]
    simp [String.data_append, List.append_assoc]
  have htd := takeWhile_dropWhile_all (fun c => c.isDigit) d.data
    ('.' :: (pad3 m).data) hddig
  have hpoint : List.takeWhile (fun c => c.isDigit) ('.' :: (pad3 m).data) = []
      ∧ List.dropWhile (fun c => c.isDigit) ('.' :: (pad3 m).data) =
        '.' :: (pad3 m).data := by
    constructor <;> simp [List.takeWhile_cons, List.dropWhile_cons]
  have htake : List.takeWhile (fun c => c.isDigit) (d.data ++ '.' :: (pad3 m).data)
      = d.data := by rw [htd.1, hpoint.1, List.append_nil]
  have hdrop : List.dropWhile (fun c => c.isDigit) (d.data ++ '.' :: (pad3 m).data)
      = '.' :: (pad3 m).data := by rw [htd.2, hpoint.2]
  have hne : d.data.isEmpty = false := by
    cases hc : d.data with
    | nil => exact absurd hc hdne
    | cons a l => rfl
  have hdigits : ((pad3 m).data.all fun c => c.isDigit) = true := by
    rw [hfr]; simp [digitCh_isDigit]
  cases neg with
  | true =>
    have : (formatFixed3 true num den).data = '-' :: (d.data ++ '.' :: (pad3 m).data) := by
      rw [hdata]; rfl
    simp only [isFixedPoint3, this, List.head?, List.tail, if_true]
    rw [htake, hdrop]
    simp [hne, hfr, hdigits, digitCh_isDigit]
  | false =>
    have hNoSign : (formatFixed3 false num den).data = d.data ++ '.' :: (pad3 m).data := by
      rw [hdata]; rfl
    obtain ⟨c0, l0, hc0⟩ : ∃ c0 l0, d.data = c0 :: l0 := by
      cases hc : d.data with
      | nil => exact absurd hc hdne
      | cons a l => exact ⟨a, l, rfl⟩
    have hc0dig : c0.isDigit = true := hddig c0 (by rw [hc0]; exact List.mem_cons_self _ _)
    have hhead : (d.data ++ '.' :: (pad3 m).data).head? = some c0 := by
      rw [hc0]; rfl
    have hneq : ((d.data ++ '.' :: (pad3 m).data).head? = some '-') = False := by
      rw [hhead]
      simp only [Option.some.injEq, eq_iff_iff, iff_false]
      exact fun h => isDigit_ne_minus hc0dig h
    simp only [isFixedPoint3, hNoSign, hneq, if_false]
    rw [htake, hdrop]
    simp [hne, hfr, hdigits, digitCh_isDigit]

/-- C8: the Value Encoder renders an untyped nil — and a typed nil pointer
whose `Error()` or `String()` method panics — as the three unquoted
characters `nil`; it renders `time.Time` values with the layout
`2006-01-02 15:04:05`, errors via their `Error()` text and `fmt.Stringer`
values via their `String()` text, escaping those texts with the string
escaping rules; any other non-primitive value is rendered as its `%+v` dump,
escaped. -/
theorem c8_value_encoder_cases :
    formatLogfmtValue .vNil = some "nil"
    ∧ (∀ s, formatLogfmtValue (.vErr ⟨true, true, s⟩) = some "nil")
    ∧ (∀ s, formatLogfmtValue (.vStringer ⟨true, true, s⟩) = some "nil")
    ∧ (∀ t, formatLogfmtValue (.vTime t) =
        some (escapeString (goTimeFormat simpleTimeFormat t)))
    ∧ (∀ np m, formatLogfmtValue (.vErr ⟨false, np, m⟩) = some (escapeString m))
    ∧ (∀ np m, formatLogfmtValue (.vStringer ⟨false, np, m⟩) =
        some (escapeString m))
    ∧ (∀ d, formatLogfmtValue (.vOther d) = some (escapeString d)) := by
  refine ⟨rfl, fun s => rfl, fun s => rfl, fun t => rfl,
    fun np m => rfl, fun np m => rfl, fun d => rfl⟩

/-- C6: each sink constructor returns a non-nil handler and nil error when
the underlying sink constructor succeeds, and a nil handler with an error
wrapping the underlying failure exactly when it fails; construction has no
other failure path. -/
theorem c6_constructor_outcomes :
    (∀ (H : Type) (file : String) (h : H),
        newFileHandlerGo file (.ok h) = (some h, none))
    ∧ (∀ (H : Type) (file e : String),
        newFileHandlerGo file (Except.error e : Except String H) =
          (none, some ("failed to create log file " ++ file ++ ": " ++ e)))
    ∧ newSyslogHandlerGo (.ok ()) = (some newSyslogHandler, none)
    ∧ (∀ e, newSyslogHandlerGo (.error e) =
        (none, some ("failed to connect to syslog: " ++ e)))
    ∧ (∀ addr, newTCPSyslogHandlerGo addr (.ok ()) = (some newSyslogHandler, none))
    ∧ (∀ addr e, newTCPSyslogHandlerGo addr (.error e) =
        (none, some ("failed to connect to syslog: " ++ e)))
    ∧ (∀ addr, newUDPSyslogHandlerGo addr (.ok ()) = (some newSyslogHandler, none))
    ∧ (∀ addr e, newUDPSyslogHandlerGo addr (.error e) =
        (none, some ("failed to connect to syslog: " ++ e)))
    ∧ (∀ (H : Type) (file : String) (u : Except String H),
        (∃ h, u = .ok h ∧ newFileHandlerGo file u = (some h, none)) ∨
        (∃ e, u = .error e ∧ newFileHandlerGo file u =
          (none, some ("failed to create log file " ++ file ++ ": " ++ e)))) := by
  refine ⟨fun H file h => rfl, fun H file e => rfl, rfl, fun e => rfl,
    fun addr => rfl, fun addr e => rfl, fun addr => rfl, fun addr e => rfl,
    fun H file u => ?_⟩
  cases u with
  | error e => exact Or.inr ⟨e, rfl, rfl⟩
  | ok h => exact Or.inl ⟨h, rfl, rfl⟩

/-- C5: whenever the syslog handler handles a record to completion, it
invokes the severity method selected from the record's level by the
handler's switch — Crit for LvlCrit, Err for LvlError, Warning for LvlWarn,
Info for LvlInfo, Debug for LvlDebug, and Info for any other level value —
passing it the line produced by the timestamp-free `SimpleFormat` formatter
with surrounding whitespace trimmed. -/
theorem c5_syslog_severity_mapping :
    (∀ r fn s, newSyslogHandler r = some (fn, s) →
      fn = syslogFnFor (lvlInt r.lvl)
      ∧ ∃ line, simpleFormat false r = some line ∧ s = goTrimSpace line)
    ∧ syslogFnFor (lvlInt .crit) = .crit
    ∧ syslogFnFor (lvlInt .error) = .err
    ∧ syslogFnFor (lvlInt .warn) = .warning
    ∧ syslogFnFor (lvlInt .info) = .info
    ∧ syslogFnFor (lvlInt .debug) = .debug
    ∧ (∀ i : Int, i ≠ 0 → i ≠ 1 → i ≠ 2 → i ≠ 3 → i ≠ 4 →
        syslogFnFor i = .info) := by
  refine ⟨fun r fn s h => ?_, rfl, rfl, rfl, rfl, rfl,
    fun i h0 h1 h2 h3 h4 => ?_⟩
  · unfold newSyslogHandler at h
    cases hf : simpleFormat false r with
    | none => rw [hf] at h; exact absurd h (by simp)
    | some line =>
      rw [hf] at h
      simp only [Option.some.injEq, Prod.mk.injEq] at h
      exact ⟨h.1.symm, line, rfl, h.2.symm⟩
  · simp [syslogFnFor, h0, h1, h2, h3, h4]

/-- Witness for C5 at a concrete critical-level record, and the default
switch arm at the out-of-range level 7. -/
theorem c5_syslog_severity_mapping_witness :
    (SyslogFn.crit = syslogFnFor (lvlInt Lvl.crit)
      ∧ ∃ line, simpleFormat false ⟨⟨2020, 1, 2, 3, 4, 5⟩, Lvl.crit, "boom", []⟩ =
          some line ∧ "CRIT boom" = goTrimSpace line)
    ∧ syslogFnFor 7 = SyslogFn.info :=
  ⟨c5_syslog_severity_mapping.1 ⟨⟨2020, 1, 2, 3, 4, 5⟩, Lvl.crit, "boom", []⟩
      SyslogFn.crit "CRIT boom" (by rfl),
   c5_syslog_severity_mapping.2.2.2.2.2.2 7 (by decide) (by decide) (by decide)
      (by decide) (by decide)⟩

end Rslog

namespace Rslog

/-- C3 as stated is false on the code: the float64 value +Inf is a float64
context value, and the Value Encoder renders it as `+Inf`, which is not
fixed-point notation with three digits after a decimal point. -/
theorem c3_float_counterexample :
    formatLogfmtValue (.vFloat64 .inf) = some "+Inf"
    ∧ isFixedPoint3 "+Inf" = false := by
  constructor <;> decide

/-- C3 amended: every finite float32 or float64 context value is rendered by
the Value Encoder in fixed-point decimal notation with exactly three digits
after the decimal point and never in exponent notation (the float64 value
nearest 3.15, which is 7093169413108531/2^51, renders as `3.150`); the
non-finite values render as `+Inf`, `-Inf` and `NaN`. -/
theorem c3_float_fixed_point :
    (∀ f : FloatVal, formatLogfmtValue (.vFloat64 f) = some (formatFloatGo f))
    ∧ (∀ f : FloatVal, formatLogfmtValue (.vFloat32 f) = some (formatFloatGo f))
    ∧ (∀ (neg : Bool) (num den : Nat),
        isFixedPoint3 (formatFloatGo (.finite neg num den)) = true)
    ∧ formatFloatGo .inf = "+Inf"
    ∧ formatFloatGo .negInf = "-Inf"
    ∧ formatFloatGo .nan = "NaN"
    ∧ formatLogfmtValue
        (.vFloat64 (.finite false 7093169413108531 2251799813685248)) =
        some "3.150" := by
  refine ⟨fun f => rfl, fun f => rfl, fun neg num den => formatFixed3_shape neg num den,
    rfl, rfl, rfl, by decide⟩

/-- C2 as stated is false on the code: the string consisting of the single
control character U+0001 contains no whitespace character, no equals sign and
no double quote, yet `escapeString` surrounds it with double quotes (the code
quotes on every character with code at most U+0020, not only whitespace). -/
theorem c2_quote_rule_counterexample :
    escapeString "\x01" = "\"\x01\""
    ∧ ¬ ∃ c ∈ ("\x01" : String).data, c.isWhitespace ∨ c = '=' ∨ c = '"' := by
  constructor <;> decide

/-- C2 amended: the Value Encoder surrounds a rendered string with double
quotes if and only if it contains a character with code at most U+0020
(which includes every ASCII whitespace character), an equals sign, or a
double quote; inside the rendered value a backslash or double quote is
preceded by a backslash, newline, carriage return and tab become the
two-character sequences \n, \r, \t, and every other character appears
unchanged. -/
theorem c2_quote_and_escape :
    (∀ s : String,
      ((∃ c ∈ s.data, c ≤ ' ' ∨ c = '=' ∨ c = '"') →
        escapeString s = "\"" ++ escBody s ++ "\"")
      ∧ (¬(∃ c ∈ s.data, c ≤ ' ' ∨ c = '=' ∨ c = '"') →
        escapeString s = escBody s))
    ∧ escapeChar '\\' = "\\\\"
    ∧ escapeChar '"' = "\\\""
    ∧ escapeChar '\n' = "\\n"
    ∧ escapeChar '\r' = "\\r"
    ∧ escapeChar '\t' = "\\t"
    ∧ (∀ c : Char, c ≠ '\\' → c ≠ '"' → c ≠ '\n' → c ≠ '\r' → c ≠ '\t' →
        escapeChar c = String.mk [c]) := by
  have hiff : ∀ s : String,
      s.data.any needsQuote = true ↔ (∃ c ∈ s.data, c ≤ ' ' ∨ c = '=' ∨ c = '"') := by
    intro s
    rw [List.any_eq_true]
    constructor
    · rintro ⟨c, hc, hq⟩
      refine ⟨c, hc, ?_⟩
      simpa [needsQuote, or_assoc] using hq
    · rintro ⟨c, hc, hq⟩
      refine ⟨c, hc, ?_⟩
      simpa [needsQuote, or_assoc] using hq
  refine ⟨fun s => ⟨fun h => ?_, fun h => ?_⟩, by decide, by decide, by decide,
    by decide, by decide, fun c h1 h2 h3 h4 h5 => ?_⟩
  · rw [escapeString, if_pos ((hiff s).mpr h)]
  · rw [escapeString, if_neg (fun hq => h ((hiff s).mp hq))]
  · simp [escapeChar, h1, h2, h3, h4, h5]

/-- Witness for C2's amended theorem at concrete inputs: a string with a
space is quoted, a plain string is not, and an ordinary character maps to
itself. -/
theorem c2_quote_and_escape_witness :
    escapeString "a b" = "\"" ++ escBody "a b" ++ "\""
    ∧ escapeString "ab" = escBody "ab"
    ∧ escapeChar 'x' = String.mk ['x'] :=
  ⟨(c2_quote_and_escape.1 "a b").1 ⟨' ', by decide, by decide⟩,
   (c2_quote_and_escape.1 "ab").2 (by decide),
   c2_quote_and_escape.2.2.2.2.2.2 'x' (by decide) (by decide) (by decide)
     (by decide) (by decide)⟩

end Rslog

namespace Rslog

/-- Appending the empty string is the identity. -/
theorem str_append_empty (s : String) : s ++ "" = s := by
  apply String.ext
  simp [String.data_append]

/-- A bracketed string is never empty. -/
theorem bracket_ne_empty (x : String) : ("[" ++ x ++ "]") ≠ "" := by
  intro h
  have := congrArg String.data h
  simp [String.data_append] at this

/-- The header block decomposes into a timestamp section (present exactly
when the timestamp format is nonempty) and a level section (present exactly
when the level flag is set). -/
theorem headerStr_eq (f : FmtConfig) (r : Record) :
    headerStr f r =
      (if f.timestampFormat = "" then ""
       else "[" ++ goTimeFormat f.timestampFormat r.time ++ "]")
      ++ (if f.level then
            (if f.timestampFormat = "" then "" else " ")
              ++ goToUpper (lvlString r.lvl)
          else "") := by
  have hb := bracket_ne_empty (goTimeFormat f.timestampFormat r.time)
  apply String.ext
  by_cases ht : f.timestampFormat = "" <;> by_cases hl : f.level <;>
    simp [headerStr, ht, hl, hb, String.data_append]

/-- `writeEmptyTag` on an empty context. -/
theorem writeEmptyTag_nil (b : String) : writeEmptyTag b [] = some (b, []) := rfl

/-- `writeEmptyTag` when the empty tag's value is a string. -/
theorem writeEmptyTag_str (b s : String) (rest : List GoValue) :
    writeEmptyTag b (.vStr "" :: .vStr s :: rest) =
      some ((if b ≠ "" then b ++ " " else b) ++ s, rest) := rfl

/-- `writeEmptyTag` when the empty tag's value is not a string. -/
theorem writeEmptyTag_nonstr (b : String) (v : GoValue) (rest : List GoValue)
    (hv : ∀ s, v ≠ .vStr s) :
    writeEmptyTag b (.vStr "" :: v :: rest) =
      some ((if b ≠ "" then b ++ " " else b) ++ "LOG_ERR=\"\"", rest) := by
  cases v <;> first | exact absurd rfl (hv _) | rfl

/-- `writeEmptyTag` when the context is the empty tag alone: index out of
range. -/
theorem writeEmptyTag_single (b : String) : writeEmptyTag b [.vStr ""] = none := rfl

/-- `writeEmptyTag` leaves a context headed by a nonempty string key
untouched. -/
theorem writeEmptyTag_key (b k : String) (rest : List GoValue) (hk : k ≠ "") :
    writeEmptyTag b (.vStr k :: rest) = some (b, .vStr k :: rest) := by
  simp [writeEmptyTag, hk]

/-- `writeEmptyTag` leaves a context headed by a non-string untouched. -/
theorem writeEmptyTag_other (b : String) (hd : GoValue) (tl : List GoValue)
    (hv : ∀ s, hd ≠ .vStr s) :
    writeEmptyTag b (hd :: tl) = some (b, hd :: tl) := by
  cases hd <;> first | exact absurd rfl (hv _) | rfl

/-- Whatever `writeEmptyTag` returns extends the incoming buffer. -/
theorem writeEmptyTag_app (b : String) (ctx : List GoValue) (b2 : String)
    (rem : List GoValue) (h : writeEmptyTag b ctx = some (b2, rem)) :
    ∃ t, b2 = b ++ t := by
  have hfst : ∀ (x : String) (l1 : List GoValue),
      (some (x, l1) : Option (String × List GoValue)) = some (b2, rem) → b2 = x := by
    intro x l1 hh
    simp only [Option.some.injEq, Prod.mk.injEq] at hh
    exact hh.1.symm
  cases ctx with
  | nil =>
    rw [writeEmptyTag_nil] at h
    exact ⟨"", by rw [str_append_empty]; exact hfst _ _ h⟩
  | cons hd tl =>
    cases hd with
    | vStr k =>
      by_cases hk : k = ""
      · subst hk
        cases tl with
        | nil => rw [writeEmptyTag_single] at h; cases h
        | cons v rest =>
          have key : ∀ x : String,
              some ((if b ≠ "" then b ++ " " else b) ++ x, rest) = some (b2, rem) →
              ∃ t, b2 = b ++ t := by
            intro x hh
            have hb2 : b2 = (if b ≠ "" then b ++ " " else b) ++ x := by
              simp only [Option.some.injEq, Prod.mk.injEq] at hh
              exact hh.1.symm
            by_cases hb : b ≠ ""
            · exact ⟨" " ++ x, by rw [hb2, if_pos hb, String.append_assoc]⟩
            · exact ⟨x, by rw [hb2, if_neg hb]⟩
          cases v with
          | vStr s => rw [writeEmptyTag_str] at h; exact key s h
          | vNil => rw [writeEmptyTag_nonstr b _ rest (fun s hs => GoValue.noConfusion hs)] at h; exact key _ h
          | vBool x => rw [writeEmptyTag_nonstr b _ rest (fun s hs => GoValue.noConfusion hs)] at h; exact key _ h
          | vInt x => rw [writeEmptyTag_nonstr b _ rest (fun s hs => GoValue.noConfusion hs)] at h; exact key _ h
          | vFloat32 x => rw [writeEmptyTag_nonstr b _ rest (fun s hs => GoValue.noConfusion hs)] at h; exact key _ h
          | vFloat64 x => rw [writeEmptyTag_nonstr b _ rest (fun s hs => GoValue.noConfusion hs)] at h; exact key _ h
          | vTime x => rw [writeEmptyTag_nonstr b _ rest (fun s hs => GoValue.noConfusion hs)] at h; exact key _ h
          | vErr x => rw [writeEmptyTag_nonstr b _ rest (fun s hs => GoValue.noConfusion hs)] at h; exact key _ h
          | vStringer x => rw [writeEmptyTag_nonstr b _ rest (fun s hs => GoValue.noConfusion hs)] at h; exact key _ h
          | vOther x => rw [writeEmptyTag_nonstr b _ rest (fun s hs => GoValue.noConfusion hs)] at h; exact key _ h
      · rw [writeEmptyTag_key b k tl hk] at h
        exact ⟨"", by rw [str_append_empty]; exact hfst _ _ h⟩
    | vNil => rw [writeEmptyTag_other b _ tl (fun s hs => GoValue.noConfusion hs)] at h
              exact ⟨"", by rw [str_append_empty]; exact hfst _ _ h⟩
    | vBool x => rw [writeEmptyTag_other b _ tl (fun s hs => GoValue.noConfusion hs)] at h
                 exact ⟨"", by rw [str_append_empty]; exact hfst _ _ h⟩
    | vInt x => rw [writeEmptyTag_other b _ tl (fun s hs => GoValue.noConfusion hs)] at h
                exact ⟨"", by rw [str_append_empty]; exact hfst _ _ h⟩
    | vFloat32 x => rw [writeEmptyTag_other b _ tl (fun s hs => GoValue.noConfusion hs)] at h
                    exact ⟨"", by rw [str_append_empty]; exact hfst _ _ h⟩
    | vFloat64 x => rw [writeEmptyTag_other b _ tl (fun s hs => GoValue.noConfusion hs)] at h
                    exact ⟨"", by rw [str_append_empty]; exact hfst _ _ h⟩
    | vTime x => rw [writeEmptyTag_other b _ tl (fun s hs => GoValue.noConfusion hs)] at h
                 exact ⟨"", by rw [str_append_empty]; exact hfst _ _ h⟩
    | vErr x => rw [writeEmptyTag_other b _ tl (fun s hs => GoValue.noConfusion hs)] at h
                exact ⟨"", by rw [str_append_empty]; exact hfst _ _ h⟩
    | vStringer x => rw [writeEmptyTag_other b _ tl (fun s hs => GoValue.noConfusion hs)] at h
                     exact ⟨"", by rw [str_append_empty]; exact hfst _ _ h⟩
    | vOther x => rw [writeEmptyTag_other b _ tl (fun s hs => GoValue.noConfusion hs)] at h
                  exact ⟨"", by rw [str_append_empty]; exact hfst _ _ h⟩

/-- The message block extends the buffer. -/
theorem msgStep_app (b m : String) : ∃ t, msgStep b m = b ++ t := by
  unfold msgStep
  by_cases hm : m ≠ ""
  · rw [if_pos hm]
    by_cases hb : b ≠ ""
    · rw [if_pos hb]; exact ⟨" " ++ m, by rw [String.append_assoc]⟩
    · rw [if_neg hb]; exact ⟨m, rfl⟩
  · rw [if_neg hm]; exact ⟨"", (str_append_empty b).symm⟩

/-- Every line the formatter produces starts with the header block. -/
theorem formatter_extends_header (f : FmtConfig) (r : Record) (out : String)
    (h : configurableFormatter f r = some out) :
    ∃ rest, out = headerStr f r ++ rest := by
  unfold configurableFormatter at h
  cases hw : writeEmptyTag (headerStr f r) r.ctx with
  | none => rw [hw] at h; cases h
  | some p =>
    obtain ⟨b2, rem⟩ := p
    rw [hw] at h
    obtain ⟨t1, ht1⟩ := writeEmptyTag_app _ _ _ _ hw
    obtain ⟨t2, ht2⟩ := msgStep_app b2 r.msg
    by_cases hrem : rem.isEmpty
    · simp only [hrem, if_true, Option.some.injEq] at h
      refine ⟨t1 ++ (t2 ++ "\n"), ?_⟩
      rw [← h, ht2, ht1, String.append_assoc, String.append_assoc]
    · simp only [hrem, if_false, Bool.false_eq_true] at h
      cases hp : ctxPairs rem with
      | none => rw [hp] at h; cases h
      | some ps =>
        rw [hp] at h
        simp only [Option.some.injEq] at h
        refine ⟨t1 ++ (t2 ++ justifyPad f r.msg ++ msgSep f
          ++ String.intercalate " " ps ++ "\n"), ?_⟩
        rw [← h, ht2, ht1]
        simp [String.append_assoc]

end Rslog

namespace Rslog

/-- C4: every produced line begins with a bracketed timestamp exactly when
the configuration's timestamp format is nonempty, followed by the upper-cased
level name exactly when the Level flag is set; `SimpleFormat(true)` enables
both timestamp and level, `SimpleFormat(false)` the level only, and
`TerseFormat` neither. -/
theorem c4_timestamp_and_level :
    (∀ (f : FmtConfig) (r : Record) (out : String),
      configurableFormatter f r = some out →
      ∃ rest, out =
        (if f.timestampFormat = "" then ""
         else "[" ++ goTimeFormat f.timestampFormat r.time ++ "]")
        ++ (if f.level then
              (if f.timestampFormat = "" then "" else " ")
                ++ goToUpper (lvlString r.lvl)
            else "")
        ++ rest)
    ∧ simpleFormat true = configurableFormatter ⟨simpleTimeFormat, true, "", simpleMsgJust⟩
    ∧ simpleFormat false = configurableFormatter ⟨"", true, "", simpleMsgJust⟩
    ∧ terseFormat = configurableFormatter ⟨"", false, "", simpleMsgJust⟩
    ∧ simpleTimeFormat ≠ "" := by
  refine ⟨fun f r out h => ?_, rfl, rfl, rfl, by decide⟩
  obtain ⟨rest, hrest⟩ := formatter_extends_header f r out h
  refine ⟨rest, ?_⟩
  rw [hrest, headerStr_eq]

/-- Witness for C4 at a concrete record formatted with the timestamped
simple format. -/
theorem c4_timestamp_and_level_witness :
    ∃ rest, "[2020-01-02 03:04:05] INFO 42\n" =
      (if simpleTimeFormat = "" then ""
       else "[" ++ goTimeFormat simpleTimeFormat (⟨2020, 1, 2, 3, 4, 5⟩ : GoTime) ++ "]")
      ++ (if true then
            (if simpleTimeFormat = "" then "" else " ")
              ++ goToUpper (lvlString .info)
          else "")
      ++ rest :=
  c4_timestamp_and_level.1 ⟨simpleTimeFormat, true, "", simpleMsgJust⟩
    ⟨⟨2020, 1, 2, 3, 4, 5⟩, .info, "42", []⟩
    "[2020-01-02 03:04:05] INFO 42\n" (by decide)

end Rslog

namespace Rslog

/-- A context loop step with a string key. -/
theorem ctxPairs_cons_str (k : String) (v : GoValue) (rest : List GoValue)
    (vs : String) (ps : List String) (hv : formatLogfmtValue v = some vs)
    (hps : ctxPairs rest = some ps) :
    ctxPairs (.vStr k :: v :: rest) = some ((k ++ "=" ++ vs) :: ps) := by
  simp [ctxPairs, hv, hps]

/-- A context loop step with a non-string key. -/
theorem ctxPairs_cons_nonstr (kv v : GoValue) (rest : List GoValue)
    (vs : String) (ps : List String) (h : ∀ s, kv ≠ .vStr s)
    (hv : formatLogfmtValue kv = some vs) (hps : ctxPairs rest = some ps) :
    ctxPairs (kv :: v :: rest) = some (("LOG_ERR=" ++ vs) :: ps) := by
  cases kv <;> first | exact absurd rfl (h _) | simp [ctxPairs, hv, hps]

/-- C9: a leading empty string key makes `ConfigurableFormatter` write the
second context element before the message — verbatim when it is a string,
as the literal `LOG_ERR=""` otherwise — and drop that pair from the
remaining key=value context; a nonempty or non-string first key is left
alone, and an empty key inside the context loop is treated like any other
key. -/
theorem c9_empty_tag_rules :
    (∀ (b s : String) (rest : List GoValue),
      writeEmptyTag b (.vStr "" :: .vStr s :: rest) =
        some ((if b ≠ "" then b ++ " " else b) ++ s, rest))
    ∧ (∀ (b : String) (v : GoValue) (rest : List GoValue), (∀ s, v ≠ .vStr s) →
      writeEmptyTag b (.vStr "" :: v :: rest) =
        some ((if b ≠ "" then b ++ " " else b) ++ "LOG_ERR=\"\"", rest))
    ∧ (∀ (b k : String) (ctx2 : List GoValue), k ≠ "" →
      writeEmptyTag b (.vStr k :: ctx2) = some (b, .vStr k :: ctx2))
    ∧ (∀ (v : GoValue) (rest : List GoValue) (vs : String) (ps : List String),
      formatLogfmtValue v = some vs → ctxPairs rest = some ps →
      ctxPairs (.vStr "" :: v :: rest) = some (("" ++ "=" ++ vs) :: ps)) :=
  ⟨writeEmptyTag_str, writeEmptyTag_nonstr, writeEmptyTag_key,
   fun v rest vs ps hv hps => ctxPairs_cons_str "" v rest vs ps hv hps⟩

/-- Witness for C9 at concrete inputs: string tag value written raw,
non-string tag value replaced, nonempty key untouched, empty key inside the
loop ordinary. -/
theorem c9_empty_tag_rules_witness :
    writeEmptyTag "H" [.vStr "", .vStr "x"] = some ("H x", [])
    ∧ writeEmptyTag "H" [.vStr "", .vInt 1] = some ("H LOG_ERR=\"\"", [])
    ∧ writeEmptyTag "H" [.vStr "k"] = some ("H", [.vStr "k"])
    ∧ ctxPairs [.vStr "", .vStr "y"] = some ["=y"] :=
  ⟨c9_empty_tag_rules.1 "H" "x" [],
   c9_empty_tag_rules.2.1 "H" (.vInt 1) [] (fun s hs => GoValue.noConfusion hs),
   c9_empty_tag_rules.2.2.1 "H" "k" [] (by decide),
   c9_empty_tag_rules.2.2.2 (.vStr "y") [] "y" [] (by decide) rfl⟩

/-- C10: in the context loop a string key is emitted as `key=<encoded
value>` in order, while a non-string even-position element is emitted as
`LOG_ERR=<its own encoding>` with the following odd-position element dropped
entirely. -/
theorem c10_context_pair_rules :
    (∀ (k : String) (v : GoValue) (rest : List GoValue) (vs : String)
        (ps : List String),
      formatLogfmtValue v = some vs → ctxPairs rest = some ps →
      ctxPairs (.vStr k :: v :: rest) = some ((k ++ "=" ++ vs) :: ps))
    ∧ (∀ (kv v : GoValue) (rest : List GoValue) (vs : String) (ps : List String),
      (∀ s, kv ≠ .vStr s) →
      formatLogfmtValue kv = some vs → ctxPairs rest = some ps →
      ctxPairs (kv :: v :: rest) = some (("LOG_ERR=" ++ vs) :: ps)) :=
  ⟨ctxPairs_cons_str, ctxPairs_cons_nonstr⟩

/-- Witness for C10 at concrete inputs; note the value `"zz"` next to the
non-string key `5` disappears from the output. -/
theorem c10_context_pair_rules_witness :
    ctxPairs [.vStr "k", .vInt 7] = some ["k=7"]
    ∧ ctxPairs [.vInt 5, .vStr "zz"] = some ["LOG_ERR=5"] :=
  ⟨c10_context_pair_rules.1 "k" (.vInt 7) [] "7" [] (by decide) rfl,
   c10_context_pair_rules.2 (.vInt 5) (.vStr "zz") [] "5" []
     (fun s hs => GoValue.noConfusion hs) (by decide) rfl⟩

/-- C1: when context pairs remain to print, the formatter writes, right
after the message block, exactly `MsgJustification - len(message)` spaces
when the message's byte length is below `MsgJustification` and none
otherwise, followed by the separator (a single space when `MsgCtxSeparator`
is empty, else `MsgCtxSeparator` verbatim); when no pairs remain, no padding
is written. -/
theorem c1_message_justification :
    ∀ (f : FmtConfig) (r : Record) (b : String) (rem : List GoValue),
      writeEmptyTag (headerStr f r) r.ctx = some (b, rem) →
      (rem = [] → configurableFormatter f r = some (msgStep b r.msg ++ "\n"))
      ∧ (∀ ps, ctxPairs rem = some ps → rem ≠ [] →
        configurableFormatter f r = some (msgStep b r.msg
          ++ spacesStr (if (r.msg.utf8ByteSize : Int) < f.msgJustification
              then (f.msgJustification - (r.msg.utf8ByteSize : Int)).toNat else 0)
          ++ (if f.msgCtxSeparator = "" then " " else f.msgCtxSeparator)
          ++ String.intercalate " " ps ++ "\n")) := by
  intro f r b rem hw
  constructor
  · intro hrem
    subst hrem
    unfold configurableFormatter
    rw [hw]
    rfl
  · intro ps hps hne
    have hre : rem.isEmpty = false := by
      cases rem with
      | nil => exact absurd rfl hne
      | cons a l => rfl
    have hpad : justifyPad f r.msg =
        spacesStr (if (r.msg.utf8ByteSize : Int) < f.msgJustification
          then (f.msgJustification - (r.msg.utf8ByteSize : Int)).toNat else 0) := by
      unfold justifyPad
      by_cases hlt : (r.msg.utf8ByteSize : Int) < f.msgJustification
      · rw [if_pos hlt, if_pos hlt]
      · rw [if_neg hlt, if_neg hlt]; rfl
    unfold configurableFormatter
    rw [hw]
    simp only [hre, Bool.false_eq_true, if_false, hps, hpad, msgSep]

/-- Witness for C1 at a concrete record with one context pair and a short
message: 38 padding spaces appear between message and separator. -/
theorem c1_message_justification_witness :
    configurableFormatter ⟨"", false, "", 40⟩
        ⟨⟨2020, 1, 2, 3, 4, 5⟩, .info, "hi", [.vStr "k", .vStr "v"]⟩ =
      some ("hi" ++ spacesStr 38 ++ " " ++ "k=v" ++ "\n") :=
  (c1_message_justification ⟨"", false, "", 40⟩
      ⟨⟨2020, 1, 2, 3, 4, 5⟩, .info, "hi", [.vStr "k", .vStr "v"]⟩
      "" [.vStr "k", .vStr "v"] (by decide)).2 ["k=v"] (by decide) (by decide)

end Rslog

namespace Rslog

/-- Encoding a value succeeds whenever the value is not one whose method
panics on a non-nil receiver. -/
theorem formatLogfmtValue_total (v : GoValue) (h : valuePanics v = false) :
    ∃ s, formatLogfmtValue v = some s := by
  cases v with
  | vNil => exact ⟨"nil", rfl⟩
  | vBool b => exact ⟨_, rfl⟩
  | vInt i => exact ⟨_, rfl⟩
  | vFloat32 f => exact ⟨_, rfl⟩
  | vFloat64 f => exact ⟨_, rfl⟩
  | vStr s => exact ⟨_, rfl⟩
  | vTime t => exact ⟨_, rfl⟩
  | vOther d => exact ⟨_, rfl⟩
  | vErr m =>
    obtain ⟨p, np, tx⟩ := m
    cases p with
    | false => exact ⟨escapeString tx, rfl⟩
    | true =>
      cases np with
      | true => exact ⟨"nil", rfl⟩
      | false => simp [valuePanics] at h
  | vStringer m =>
    obtain ⟨p, np, tx⟩ := m
    cases p with
    | false => exact ⟨escapeString tx, rfl⟩
    | true =>
      cases np with
      | true => exact ⟨"nil", rfl⟩
      | false => simp [valuePanics] at h

/-- Any value is either a string value or provably not one. -/
theorem goValue_str_split (hd : GoValue) :
    (∃ k, hd = GoValue.vStr k) ∨ (∀ s, hd ≠ GoValue.vStr s) := by
  cases hd
  case vStr k => exact Or.inl ⟨k, rfl⟩
  all_goals exact Or.inr fun s hs => GoValue.noConfusion hs

/-- The context loop succeeds on every even-length context with no
panicking values. -/
theorem ctxPairs_total :
    ∀ (n : Nat) (l : List GoValue), l.length ≤ n → l.length % 2 = 0 →
      (∀ v ∈ l, valuePanics v = false) → ∃ ps, ctxPairs l = some ps := by
  intro n
  induction n with
  | zero =>
    intro l hl _ _
    have hnil : l = [] := List.length_eq_zero.mp (Nat.le_zero.mp hl)
    subst hnil
    exact ⟨[], rfl⟩
  | succ n ih =>
    intro l hl hpar hok
    cases l with
    | nil => exact ⟨[], rfl⟩
    | cons hd tl =>
      cases tl with
      | nil => simp at hpar
      | cons v2 rest =>
        have hrest_len : rest.length ≤ n := by
          simp only [List.length_cons] at hl; omega
        have hrest_par : rest.length % 2 = 0 := by
          simp only [List.length_cons] at hpar; omega
        have hrest_ok : ∀ v ∈ rest, valuePanics v = false := fun v hv =>
          hok v (List.mem_cons_of_mem _ (List.mem_cons_of_mem _ hv))
        obtain ⟨tail, htail⟩ := ih rest hrest_len hrest_par hrest_ok
        rcases goValue_str_split hd with ⟨k, hk⟩ | hnon
        · subst hk
          obtain ⟨vs, hvs⟩ := formatLogfmtValue_total v2
            (hok v2 (List.mem_cons_of_mem _ (List.mem_cons_self _ _)))
          exact ⟨_, ctxPairs_cons_str k v2 rest vs tail hvs htail⟩
        · obtain ⟨vs, hvs⟩ := formatLogfmtValue_total hd
            (hok hd (List.mem_cons_self _ _))
          exact ⟨_, ctxPairs_cons_nonstr hd v2 rest vs tail hnon hvs htail⟩

/-- The empty-tag block succeeds on every even-length context and returns an
even-length sub-context. -/
theorem writeEmptyTag_total (b : String) (ctx : List GoValue)
    (hpar : ctx.length % 2 = 0) :
    ∃ b2 rem, writeEmptyTag b ctx = some (b2, rem) ∧ rem.length % 2 = 0 ∧
      ∀ v ∈ rem, v ∈ ctx := by
  cases ctx with
  | nil => exact ⟨b, [], rfl, rfl, by simp⟩
  | cons hd tl =>
    rcases goValue_str_split hd with ⟨k, hk⟩ | hnon
    · subst hk
      by_cases hke : k = ""
      · subst hke
        cases tl with
        | nil => simp at hpar
        | cons v rest =>
          have hrest_par : rest.length % 2 = 0 := by
            simp only [List.length_cons] at hpar; omega
          have hsub : ∀ w ∈ rest, w ∈ GoValue.vStr "" :: v :: rest := fun w hw =>
            List.mem_cons_of_mem _ (List.mem_cons_of_mem _ hw)
          rcases goValue_str_split v with ⟨s, hs⟩ | hvnon
          · subst hs
            exact ⟨_, rest, writeEmptyTag_str b s rest, hrest_par, hsub⟩
          · exact ⟨_, rest, writeEmptyTag_nonstr b v rest hvnon, hrest_par, hsub⟩
      · exact ⟨b, _, writeEmptyTag_key b k tl hke, hpar, fun v hv => hv⟩
    · exact ⟨b, _, writeEmptyTag_other b hd tl hnon, hpar, fun v hv => hv⟩

/-- C7 as stated is false on the code: a context value whose `String()`
method panics on a non-nil receiver re-raises the panic out of
`formatShared`, so the format function itself panics instead of returning a
byte sequence. -/
theorem c7_panic_counterexample :
    configurableFormatter ⟨"", false, "", 40⟩
      ⟨⟨2020, 1, 2, 3, 4, 5⟩, .info, "m",
        [.vStr "k", .vStringer ⟨true, false, "x"⟩]⟩ = none := by
  decide

/-- C7 amended: for every configuration and every record whose context slice
has even length and contains no value whose `Error()`/`String()` method
panics on a non-nil receiver, formatting terminates and returns a byte
sequence — no error and no panic. -/
theorem c7_no_failure_amended :
    ∀ (f : FmtConfig) (r : Record),
      r.ctx.length % 2 = 0 → (∀ v ∈ r.ctx, valuePanics v = false) →
      ∃ out, configurableFormatter f r = some out := by
  intro f r hpar hok
  obtain ⟨b2, rem, hw, hrempar, hsub⟩ := writeEmptyTag_total (headerStr f r) r.ctx hpar
  unfold configurableFormatter
  rw [hw]
  by_cases hrem : rem.isEmpty
  · refine ⟨msgStep b2 r.msg ++ "\n", ?_⟩
    simp [hrem]
  · obtain ⟨ps, hps⟩ := ctxPairs_total rem.length rem (Nat.le_refl _) hrempar
      fun v hv => hok v (hsub v hv)
    refine ⟨msgStep b2 r.msg ++ justifyPad f r.msg ++ msgSep f
      ++ String.intercalate " " ps ++ "\n", ?_⟩
    simp only [Bool.not_eq_true] at hrem
    simp [hrem, hps]

/-- Witness for C7's amended theorem at a concrete well-formed record. -/
theorem c7_no_failure_amended_witness :
    ∃ out, configurableFormatter ⟨"", false, "", 40⟩
      ⟨⟨2020, 1, 2, 3, 4, 5⟩, .info, "m", [.vStr "k", .vStr "v"]⟩ = some out :=
  c7_no_failure_amended ⟨"", false, "", 40⟩
    ⟨⟨2020, 1, 2, 3, 4, 5⟩, .info, "m", [.vStr "k", .vStr "v"]⟩
    (by decide) (by decide)

end Rslog
